import Mathlib

/-!
# Verification of the go-std jail resolver, virtual environment and pipeline harness

This file gives a shallow embedding, in Lean 4, of the parts of the
jlrickert/go-std repository that the specification's claims talk about:

* the jail path resolver (`src/pkg/filepath_jail.go`): `IsInJail`,
  `EnsureInJail`, `EnsureInJailFor`;
* the in-memory test environment (`src/pkg/env_testenv.go`): `TestEnv` and its
  operations;
* the user directory lookups (`src/pkg/user.go`);
* tilde expansion (`ExpandPath`);
* the atomic file write (`src/pkg/fs.go`, `AtomicWriteFile`), modelled as a
  state machine over an abstract filesystem with an explicit outcome oracle for
  each fallible I/O step;
* the process stage stream construction (`Process.Run`) and the pipeline
  aggregation logic (`Pipeline.Run`); the nondeterministic completion order of
  the concurrently launched stages is modelled by an explicit completion
  schedule parameter.

The Go code targets `path/filepath`.  The repository's own tests skip every
jail test on Windows and state all expectations with forward slashes, so the
embedding models the Unix dialect of `path/filepath` (separator `'/'`, no
volume names): `filepath.Clean` is the classical lexical cleaning algorithm,
`filepath.IsAbs p` is `strings.HasPrefix(p, "/")`, `filepath.Join` joins the
non-empty elements with `'/'` and cleans the result, and `filepath.Rel`
compares the cleaned paths segment by segment.  These model functions are
written over `List Char` so that every definition is executable and reducible
by `decide` / `rfl`.
-/

/-! ## The Unix dialect of Go `path/filepath` -/

/-- Split a character list on `'/'`, keeping empty segments (the behaviour of
scanning a Go path byte by byte). -/
def splitSlash : List Char → List (List Char)
  | [] => [[]]
  | c :: cs =>
    if c = '/' then [] :: splitSlash cs
    else
      match splitSlash cs with
      | [] => [[c]]
      | s :: rest => (c :: s) :: rest

/-- The stack-based segment normalisation performed by Go `path.Clean`:
empty and `"."` segments are dropped, `".."` pops a previous real segment,
cannot escape the root when `rooted`, and is kept when there is nothing to
pop in a relative path.  The `stack` accumulator is kept reversed. -/
def cleanSegs (rooted : Bool) : List (List Char) → List (List Char) → List (List Char)
  | stack, [] => stack.reverse
  | stack, s :: rest =>
    if s = [] ∨ s = ['.'] then cleanSegs rooted stack rest
    else if s = ['.', '.'] then
      match stack with
      | [] => cleanSegs rooted (if rooted then [] else [['.', '.']]) rest
      | top :: stack' =>
        if top = ['.', '.'] then cleanSegs rooted (s :: stack) rest
        else cleanSegs rooted stack' rest
    else cleanSegs rooted (s :: stack) rest

/-- Rootedness flag and cleaned segment list of a path given as characters. -/
def cleanParts (cs : List Char) : Bool × List (List Char) :=
  let rooted := cs.head? = some '/'
  (rooted, cleanSegs rooted [] (splitSlash cs))

/-- Join segments with `'/'`. -/
def joinSegs : List (List Char) → List Char
  | [] => []
  | [s] => s
  | s :: rest => s ++ '/' :: joinSegs rest

/-- Go `filepath.Clean` (Unix dialect) on a character list: `"."` for the
empty path, otherwise the cleaned segments, re-rooted when the input was
rooted. -/
def cleanCL (cs : List Char) : List Char :=
  match cs with
  | [] => ['.']
  | _ =>
    let (rooted, segs) := cleanParts cs
    match segs with
    | [] => if rooted then ['/'] else ['.']
    | _ => (if rooted then ['/'] else []) ++ joinSegs segs

/-- Go `filepath.Clean` (Unix dialect). -/
def goClean (s : String) : String :=
  (cleanCL s.toList).asString

/-- Go `filepath.IsAbs` (Unix dialect): the path begins with `'/'`. -/
def goIsAbs (s : String) : Bool :=
  s.toList.head? = some '/'

/-- Go `strings.HasPrefix`. -/
def strHasPre (s pre : String) : Bool :=
  pre.toList.isPrefixOf s.toList

/-- Go `filepath.Join` (Unix dialect): drop empty elements, join the rest
with `'/'` and clean; all-empty input yields the empty string. -/
def goJoin (elems : List String) : String :=
  let ne := elems.filter (fun e => e ≠ "")
  match ne with
  | [] => ""
  | _ => (cleanCL (joinSegs (ne.map String.toList))).asString

/-- Two-argument Go `filepath.Join`. -/
def goJoin2 (a b : String) : String := goJoin [a, b]

/-- Drop the longest common leading run of two segment lists, returning the
remainders (the first-difference scan inside Go `filepath.Rel`). -/
def dropCommon : List (List Char) → List (List Char) → List (List Char) × List (List Char)
  | a :: as', b :: bs => if a = b then dropCommon as' bs else (a :: as', b :: bs)
  | as', bs => (as', bs)

/-- Go `filepath.Rel` (Unix dialect).  `none` models the error return.  Both
paths are cleaned; equal paths give `"."`; a rooted and a relative path can
not be related; otherwise the common segments are dropped, a remaining
leading `".."` base segment is an error, and the result climbs with one
`".."` per remaining base segment before descending into the remaining
target segments. -/
def goRel (base targ : String) : Option String :=
  let b := goClean base
  let t := goClean targ
  if t = b then some "."
  else
    let bp := cleanParts b.toList
    let tp := cleanParts t.toList
    if bp.1 ≠ tp.1 then none
    else
      let rems := dropCommon bp.2 tp.2
      match rems.1 with
      | [] => some (joinSegs rems.2).asString
      | b0 :: brest =>
        if b0 = ['.', '.'] then none
        else
          some (joinSegs (List.replicate (brest.length + 1) ['.', '.'] ++ rems.2)).asString

/-! ## Jail path resolver (`src/pkg/filepath_jail.go`) -/

/-- `IsInJail` from `src/pkg/filepath_jail.go`: reports whether `rel` resides
within the jail boundary.  Empty jail means no boundary; a relative path is
always inside; an absolute path is tested by computing the relative path from
the cleaned jail and checking that it does not start with the string `".."`
(a raw `strings.HasPrefix` check, as in the source). -/
def IsInJail (jail rel : String) : Bool :=
  let j := goClean jail
  if j = "" ∨ jail = "" then true
  else
    let p := goClean rel
    if ¬ goIsAbs p then true
    else
      match goRel j p with
      | none => false
      | some r => ¬ strHasPre r ".."

/-- `EnsureInJail` from `src/pkg/filepath_jail.go`: returns a path that
resides inside the jail when possible.  Empty jail passes the path through;
empty or root path returns the cleaned jail; a path already in the jail (per
`IsInJail`) is returned cleaned; otherwise the cleaned path is joined under
the cleaned jail (the source has identical relative and absolute fallback
branches). -/
def EnsureInJail (jail p : String) : String :=
  if jail = "" then p
  else
    let j := goClean jail
    if p = "" ∨ p = "/" then j
    else
      let pp := goClean p
      if IsInJail j pp then pp
      else if ¬ goIsAbs pp then goJoin2 j pp
      else goJoin2 j pp

/-- `EnsureInJailFor` from `src/pkg/filepath_jail.go`: converts both inputs
with `filepath.FromSlash` and applies `EnsureInJail`.  On the Unix dialect
`FromSlash` is the identity. -/
def EnsureInJailFor (jail p : String) : String :=
  EnsureInJail jail p

/-- Modelled from the spec (for comparison with `IsInJail` only): a path is
contained exactly when, after lexical cleaning of both, it equals the jail or
lies strictly beneath it, where "beneath" is judged on whole path segments
(the cleaned jail's rootedness and segment list are a prefix of the cleaned
path's). -/
def specContained (jail p : String) : Bool :=
  let j := goClean jail
  let q := goClean p
  if j = q then true
  else
    let jp := cleanParts j.toList
    let qp := cleanParts q.toList
    jp.1 = qp.1 ∧ jp.2.isPrefixOf qp.2

/-! ## Errors of the environment layer

Go errors carried by the environment code: `ErrNoEnvKey` wrapping (from
`fmt.Errorf(..., %w, ErrNoEnvKey)`) and the plain "not set" errors created
with `errors.New` in `env_testenv.go`. -/

/-- Error values returned by the environment layer. -/
inductive EnvError
  /-- An error created with `fmt.Errorf("...: %w", ErrNoEnvKey)`:
  a required environment variable is missing. -/
  | noEnvKey (msg : String)
  /-- An `errors.New` "not set" error (home, user or working directory
  requested before being set). -/
  | notSet (msg : String)
  deriving DecidableEq, Repr

/-- Whether an error wraps Go `ErrNoEnvKey` (i.e. `errors.Is(err, ErrNoEnvKey)`
would report true). -/
def EnvError.wrapsNoEnvKey : EnvError → Bool
  | .noEnvKey _ => true
  | .notSet _ => false

/-! ## The in-memory test environment (`src/pkg/env_testenv.go`)

The Go `map[string]string` is modelled as `String → Option String`
(`none` = key absent; Go map reads of absent keys yield `""`, which the
`mapGet` helper reproduces). -/

/-- The `TestEnv` struct of `env_testenv.go`. -/
structure TestEnv where
  jail : String
  home : String
  user : String
  data : String → Option String

/-- Go map read: absent keys read as the zero value `""`. -/
def mapGet (d : String → Option String) (k : String) : String :=
  (d k).getD ""

/-- Go map write. -/
def mapSet (d : String → Option String) (k v : String) : String → Option String :=
  fun x => if x = k then some v else d x

/-- Go map delete. -/
def mapDel (d : String → Option String) (k : String) : String → Option String :=
  fun x => if x = k then none else d x

/-- `TestEnv.GetHome`: the configured home, or an error when unset. -/
def TestEnv.GetHome (m : TestEnv) : Except EnvError String :=
  if m.home = "" then .error (.notSet "home not set in TestEnv")
  else .ok m.home

/-- `TestEnv.SetHome`: jail-confines the new home, stores it in the dedicated
field and mirrors it into the `"HOME"` map entry. -/
def TestEnv.SetHome (m : TestEnv) (home : String) : TestEnv :=
  let h := EnsureInJailFor m.jail home
  { m with home := h, data := mapSet m.data "HOME" h }

/-- `TestEnv.GetUser`: the configured username, or an error when unset. -/
def TestEnv.GetUser (m : TestEnv) : Except EnvError String :=
  if m.user = "" then .error (.notSet "user not set in TestEnv")
  else .ok m.user

/-- `TestEnv.SetUser`: stores the username in the dedicated field and mirrors
it into the `"USER"` map entry. -/
def TestEnv.SetUser (m : TestEnv) (username : String) : TestEnv :=
  { m with user := username, data := mapSet m.data "USER" username }

/-- `TestEnv.Get`: `"HOME"` and `"USER"` come from the dedicated fields, any
other key from the map. -/
def TestEnv.Get (m : TestEnv) (key : String) : String :=
  if key = "HOME" then m.home
  else if key = "USER" then m.user
  else mapGet m.data key

/-- `TestEnv.ExpandPath`: expands a leading tilde (`"~"`, `"~/rest"` or
`"~\rest"`) to the TestEnv home (`GetHome` with the error discarded, so the
Go zero value `""` is used when home is unset); every other path is returned
unchanged. -/
def TestEnv.ExpandPath (m : TestEnv) (p : String) : String :=
  match p.toList with
  | [] => p
  | c :: _ =>
    if c ≠ '~' then p
    else if p = "~" ∨ strHasPre p "~/" ∨ strHasPre p "~\\" then
      let home := match m.GetHome with
        | .ok h => h
        | .error _ => ""
      if p = "~" then goClean home
      else goJoin2 home (p.toList.drop 2).asString
    else p

/-- `TestEnv.Setwd`: stores the jail-confined, tilde-expanded directory as
the `"PWD"` map entry. -/
def TestEnv.Setwd (m : TestEnv) (dir : String) : TestEnv :=
  { m with data := mapSet m.data "PWD" (EnsureInJailFor m.jail (m.ExpandPath dir)) }

/-- `TestEnv.Getwd`: the stored `"PWD"` value when non-empty, otherwise an
error. -/
def TestEnv.Getwd (m : TestEnv) : Except EnvError String :=
  let wd := mapGet m.data "PWD"
  if wd ≠ "" then .ok wd
  else .error (.notSet "wd not set in TestEnv")

/-- `TestEnv.Set`: `"HOME"`, `"USER"` and `"PWD"` are routed through
`SetHome`, `SetUser` and `Setwd`; other keys go straight into the map.  (The
Go method returns an error only for a nil receiver, which has no
counterpart here.) -/
def TestEnv.Set (m : TestEnv) (key value : String) : TestEnv :=
  if key = "HOME" then m.SetHome value
  else if key = "USER" then m.SetUser value
  else if key = "PWD" then m.Setwd value
  else { m with data := mapSet m.data key value }

/-- `TestEnv.Unset`: clears the dedicated field and deletes the map entry for
`"HOME"`/`"USER"`, deletes the map entry for any other key. -/
def TestEnv.Unset (m : TestEnv) (key : String) : TestEnv :=
  if key = "HOME" then { m with home := "", data := mapDel m.data "HOME" }
  else if key = "USER" then { m with user := "", data := mapDel m.data "USER" }
  else { m with data := mapDel m.data key }

/-- `NewTestEnv`: defaults the username to `"testuser"` for the home
computation, computes a jail-confined default home (`/.root` for root,
`/home/<user>` otherwise), stores the original (possibly empty) `username`
as the current user, mirrors `HOME`/`USER`/`PWD` into the map and
pre-populates the platform convention variables (`runtime.GOOS` is passed in
as `isWindows`). -/
def NewTestEnv (isWindows : Bool) (jail home username : String) : TestEnv :=
  let user := if username = "" then "testuser" else username
  let home' :=
    if home = "" ∧ user = "root" then EnsureInJailFor jail (goJoin ["/", ".root"])
    else if home = "" then EnsureInJailFor jail (goJoin ["/", "home", user])
    else EnsureInJailFor jail home
  let d0 : String → Option String := fun _ => none
  let d1 := mapSet (mapSet (mapSet d0 "HOME" home') "USER" username) "PWD" home'
  let d2 :=
    if isWindows then
      let appdata := goJoin [home', "AppData", "Roaming"]
      let local' := goJoin [home', "AppData", "Local"]
      mapSet (mapSet (mapSet d1 "APPDATA" appdata) "LOCALAPPDATA" local')
        "TMPDIR" (goJoin [local', "Temp"])
    else
      mapSet (mapSet (mapSet (mapSet (mapSet d1
        "XDG_CONFIG_HOME" (goJoin [home', ".config"]))
        "XDG_CACHE_HOME" (goJoin [home', ".cache"]))
        "XDG_DATA_HOME" (goJoin [home', ".local", "share"]))
        "XDG_STATE_HOME" (goJoin [home', ".local", "state"]))
        "TMPDIR" (goJoin [jail, "tmp"])
  { jail := jail, home := home', user := username, data := d2 }

/-- Operations of the `TestEnv` mutator interface, for stating invariants
over arbitrary operation sequences. -/
inductive EnvOp
  | set (key value : String)
  | unset (key : String)
  | setHome (home : String)
  | setUser (username : String)
  | setwd (dir : String)

/-- Apply one mutator operation. -/
def applyOp (m : TestEnv) : EnvOp → TestEnv
  | .set k v => m.Set k v
  | .unset k => m.Unset k
  | .setHome h => m.SetHome h
  | .setUser u => m.SetUser u
  | .setwd d => m.Setwd d

/-- Apply a sequence of mutator operations in order. -/
def applyOps (m : TestEnv) (ops : List EnvOp) : TestEnv :=
  ops.foldl applyOp m

/-! ## User directory lookups (`src/pkg/user.go`)

The Go functions read the environment through the `Env` interface; the
embedding abstracts an environment to the two observations those functions
make: `vars` for `env.Get` and `home` for `env.GetHome`.  `runtime.GOOS ==
"windows"` is passed in as `isWindows`. -/

/-- The observations `user.go` makes of an `Env`. -/
structure EnvReads where
  vars : String → String
  home : Except EnvError String

/-- `UserConfigPath`: `XDG_CONFIG_HOME` override, then `APPDATA`, then the
conventional `home/.config` fallback (failing only when home is
unavailable). -/
def UserConfigPath (env : EnvReads) : Except EnvError String :=
  if env.vars "XDG_CONFIG_HOME" ≠ "" then .ok (env.vars "XDG_CONFIG_HOME")
  else if env.vars "APPDATA" ≠ "" then .ok (env.vars "APPDATA")
  else match env.home with
    | .error e => .error e
    | .ok home => .ok (goJoin2 home ".config")

/-- `UserCachePath`: `XDG_CACHE_HOME` override, then `LOCALAPPDATA`, then the
conventional `home/.cache` fallback.  The `appName` parameter is unused, as
in the source. -/
def UserCachePath (env : EnvReads) (appName : String) : Except EnvError String :=
  if env.vars "XDG_CACHE_HOME" ≠ "" then .ok (env.vars "XDG_CACHE_HOME")
  else if env.vars "LOCALAPPDATA" ≠ "" then .ok (env.vars "LOCALAPPDATA")
  else match env.home with
    | .error e => .error e
    | .ok home => .ok (goJoin2 home ".cache")

/-- `UserDataPath`: on Windows, `LOCALAPPDATA/data` or an error wrapping
`ErrNoEnvKey` when `LOCALAPPDATA` is absent; on Unix, `XDG_DATA_HOME`
override or the `home/.local/share` fallback. -/
def UserDataPath (isWindows : Bool) (env : EnvReads) : Except EnvError String :=
  if isWindows then
    if env.vars "LOCALAPPDATA" ≠ "" then .ok (goJoin2 (env.vars "LOCALAPPDATA") "data")
    else .error (.noEnvKey "LOCALAPPDATA environment variable not set")
  else
    if env.vars "XDG_DATA_HOME" ≠ "" then .ok (env.vars "XDG_DATA_HOME")
    else match env.home with
      | .error e => .error e
      | .ok home => .ok (goJoin [home, ".local", "share"])

/-- `UserStatePath`: on Windows, `LOCALAPPDATA/state` or an error wrapping
`ErrNoEnvKey` when `LOCALAPPDATA` is absent; on Unix, `XDG_STATE_HOME`
override or the `home/.local/state` fallback. -/
def UserStatePath (isWindows : Bool) (env : EnvReads) : Except EnvError String :=
  if isWindows then
    if env.vars "LOCALAPPDATA" ≠ "" then .ok (goJoin2 (env.vars "LOCALAPPDATA") "state")
    else .error (.noEnvKey "LOCALAPPDATA environment variable not set")
  else
    if env.vars "XDG_STATE_HOME" ≠ "" then .ok (env.vars "XDG_STATE_HOME")
    else match env.home with
      | .error e => .error e
      | .ok home => .ok (goJoin [home, ".local", "state"])

/-! ## Context-level tilde expansion (`ExpandPath`, `src/unnamed/part_008`)

The Go function reads home through `EnvFromContext(ctx).GetHome()`; the
embedding takes that `GetHome` result as the `gh` parameter. -/

/-- `ExpandPath`: empty input and non-tilde paths are returned unchanged;
`"~"` becomes the cleaned home, `"~/rest"` and `"~\rest"` become home joined
with the remainder (propagating a `GetHome` failure); any other leading-tilde
form is returned unchanged without error. -/
def ExpandPath (gh : Except EnvError String) (p : String) : Except EnvError String :=
  match p.toList with
  | [] => .ok p
  | c :: _ =>
    if c ≠ '~' then .ok p
    else if p = "~" ∨ strHasPre p "~/" ∨ strHasPre p "~\\" then
      match gh with
      | .error e => .error e
      | .ok home =>
        if p = "~" then .ok (goClean home)
        else .ok (goJoin2 home (p.toList.drop 2).asString)
    else .ok p

/-! ## Atomic file write (`src/pkg/fs.go`, lines 121-167)

`AtomicWriteFile` is I/O code; it is embedded as a state machine over an
abstract view of the filesystem at the target path — the target's content (if
any) and the temp file created by the call — with an explicit outcome oracle
saying which of the fallible steps (`MkdirAll`, `CreateTemp`, `Write`,
`Close`, `Chmod`, `Rename`) succeed.  The steps are performed in exactly the
order of the source, the `Chmod` failure is ignored as in the source, and
every failure branch performs the source's cleanup (removing the temp file)
before returning the triggering error. -/

/-- Abstract filesystem state at the target path: the target file's content
(`none` = absent) and the temp file's content (`none` = absent). -/
structure FsState where
  target : Option (List Nat)
  tmp : Option (List Nat)
  deriving DecidableEq, Repr

/-- Outcome oracle: whether each fallible I/O step of `AtomicWriteFile`
succeeds. -/
structure IOOutcome where
  mkdirOk : Bool
  createOk : Bool
  writeOk : Bool
  closeOk : Bool
  chmodOk : Bool
  renameOk : Bool
  deriving DecidableEq, Repr

/-- The error returned by `AtomicWriteFile`, tagged by the triggering step
(each Go branch wraps the underlying error with a distinct message). -/
inductive AwError
  | mkdirFailed
  | createFailed
  | writeFailed
  | closeFailed
  | renameFailed
  deriving DecidableEq, Repr

/-- `AtomicWriteFile` (non-context variant, `fs.go` 121-167): ensure the
parent directory, create a temp file in the same directory, write the data,
close, best-effort chmod, rename onto the target.  Any failure before or at
the rename removes the temp file and returns the step's error; only the
successful rename changes the target. -/
def AtomicWriteFile (oc : IOOutcome) (data : List Nat) (fs : FsState) :
    Except AwError Unit × FsState :=
  if ¬ oc.mkdirOk then (.error .mkdirFailed, fs)
  else if ¬ oc.createOk then (.error .createFailed, fs)
  else
    -- temp file created empty
    let fs1 : FsState := { fs with tmp := some [] }
    if ¬ oc.writeOk then (.error .writeFailed, { fs1 with tmp := none })
    else
      let fs2 : FsState := { fs1 with tmp := some data }
      if ¬ oc.closeOk then (.error .closeFailed, { fs2 with tmp := none })
      else
        -- chmod failure is logged and ignored in the source
        if ¬ oc.renameOk then (.error .renameFailed, { fs2 with tmp := none })
        else (.ok (), { target := some data, tmp := none })

/-! ## Process stage stream construction (`src/unnamed/part_010`, `Process.Run`)

Only the stream-building portion of `Process.Run` (lines 213-256) is
embedded: readers and writers are symbolic values, and the Go nilable
`io.Reader` / `io.Writer` interface fields are `Option`s.  The runner
invocation and pipe closing that follow do not affect the constructed
`Stream`. -/

/-- A symbolic input source: either a reader configured by the caller (via
`SetStdin` or the stdin pipe) or the default empty `bytes.NewReader(nil)`
substituted by `Run`. -/
inductive ReaderSrc
  | configured (id : Nat)
  | emptyReader
  deriving DecidableEq, Repr

/-- A symbolic output sink, remembering which branch of `Run` chose it. -/
inductive WriterSink
  | setWriter (id : Nat)
  | captureBuf (id : Nat)
  | pipeW (id : Nat)
  | freshBuffer
  deriving DecidableEq, Repr

/-- The fields of the `Process` struct consulted by the stream-building part
of `Run`. -/
structure ProcessModel where
  stdin : Option ReaderSrc
  out : Option WriterSink
  err : Option WriterSink
  outBuf : Option WriterSink
  errBuf : Option WriterSink
  stdoutW : Option WriterSink
  stderrW : Option WriterSink
  isTTY : Bool

/-- The `toolkit.Stream` fields fixed by `Process.Run`. -/
structure StreamModel where
  input : ReaderSrc
  output : WriterSink
  errput : WriterSink
  isPiped : Bool
  isTTY : Bool
  deriving DecidableEq, Repr

/-- The output-sink selection of `Process.Run`: an explicitly set writer,
else the capture buffer, else the pipe writer, else a fresh buffer. -/
def pickSink (set buf pipe : Option WriterSink) : WriterSink :=
  match set with
  | some w => w
  | none =>
    match buf with
    | some b => b
    | none =>
      match pipe with
      | some w => w
      | none => .freshBuffer

/-- The stream built by `Process.Run` (`part_010`, lines 213-256): the input
is the configured reader or, when none is configured, the substituted empty
reader; `IsPiped` is the source's `in != nil` test evaluated after that
substitution. -/
def ProcessRunStream (p : ProcessModel) : StreamModel :=
  let in1 : Option ReaderSrc :=
    match p.stdin with
    | none => some .emptyReader
    | some r => some r
  { input := in1.getD .emptyReader
    output := pickSink p.out p.outBuf p.stdoutW
    errput := pickSink p.err p.errBuf p.stderrW
    isPiped := in1.isSome
    isTTY := p.isTTY }

/-! ## Pipeline aggregation (`src/unnamed/part_013`, `Pipeline.Run`)

A stage is reduced to the error its runner returns (errors are modelled as
strings; `errors.Join` of a non-empty list is modelled as the list itself,
`nil` as `none`).  The stages are launched concurrently and each sends its
error on a channel when it finishes, so the collection order is the stages'
completion order — an arbitrary permutation of the launch order chosen by
the scheduler.  That nondeterminism is made explicit by the `completion`
parameter: the list of stage indices in completion order. -/

/-- A pipeline stage reduced to its name and the error its runner returns. -/
structure StageModel where
  name : String
  err : Option String
  deriving DecidableEq, Repr

/-- The observable outcome of `Pipeline.Run`: the aggregate error (the
joined non-nil stage errors, in collection order), the exit code, the
indices of the stages that were launched, and the number of adjacent pipes
wired. -/
structure PipelineResult where
  err : Option (List String)
  exitCode : Int
  launched : List Nat
  pipesWired : Nat
  deriving DecidableEq, Repr

/-- `Pipeline.Run` (`part_013`, lines 418-502): an empty stage list returns
exit code 1 and the configuration error without wiring or launching
anything; otherwise every adjacent pair is wired, every stage is launched,
the non-nil errors are collected in completion order, and the result is exit
0 with nil error when there were none, exit 1 with the joined error
otherwise. -/
def PipelineRun (stages : List StageModel) (completion : List Nat) : PipelineResult :=
  if stages.length = 0 then
    { err := some ["pipeline: no stages"], exitCode := 1, launched := [], pipesWired := 0 }
  else
    let errs := completion.filterMap (fun i => stages[i]?.bind StageModel.err)
    if errs.length > 0 then
      { err := some errs, exitCode := 1
        launched := List.range stages.length, pipesWired := stages.length - 1 }
    else
      { err := none, exitCode := 0
        launched := List.range stages.length, pipesWired := stages.length - 1 }

/-! ## Helper lemmas -/

/-- Rebuilding a string from its character list is the identity. -/
theorem asString_mk (rl : List Char) : List.asString rl = ⟨rl⟩ := rfl

/-- Decidable equality for `Except` results, used to evaluate the embedded
functions at concrete inputs. -/
instance exceptDecEq {ε α : Type} [DecidableEq ε] [DecidableEq α] :
    DecidableEq (Except ε α) := fun a b =>
  match a, b with
  | .ok x, .ok y =>
    if h : x = y then isTrue (by rw [h]) else isFalse (fun hc => h (Except.ok.inj hc))
  | .error e, .error f =>
    if h : e = f then isTrue (by rw [h]) else isFalse (fun hc => h (Except.error.inj hc))
  | .ok _, .error _ => isFalse (fun hc => Except.noConfusion hc)
  | .error _, .ok _ => isFalse (fun hc => Except.noConfusion hc)

/-- `ExpandPath` on a path of the form `"~/" ++ rest` joins home with the
remainder. -/
theorem expandPath_tilde_slash (h rest : String) :
    ExpandPath (.ok h) ("~/" ++ rest) = .ok (goJoin2 h rest) := by
  obtain ⟨rl⟩ := rest
  rw [show ("~/" ++ (⟨rl⟩ : String)) = ⟨'~' :: '/' :: rl⟩ from rfl]
  have h1 : ¬ ((⟨'~' :: '/' :: rl⟩ : String) = "~") := by
    intro hc
    have := congrArg String.data hc
    simp at this
  have h2 : strHasPre ⟨'~' :: '/' :: rl⟩ "~/" = true := by
    simp [strHasPre, String.toList, List.isPrefixOf]
  simp [ExpandPath, h1, h2, asString_mk]

/-- `ExpandPath` on a path of the form `"~\" ++ rest` joins home with the
remainder. -/
theorem expandPath_tilde_backslash (h rest : String) :
    ExpandPath (.ok h) ("~\\" ++ rest) = .ok (goJoin2 h rest) := by
  obtain ⟨rl⟩ := rest
  rw [show ("~\\" ++ (⟨rl⟩ : String)) = ⟨'~' :: '\\' :: rl⟩ from rfl]
  have h1 : ¬ ((⟨'~' :: '\\' :: rl⟩ : String) = "~") := by
    intro hc
    have := congrArg String.data hc
    simp at this
  have h2 : strHasPre ⟨'~' :: '\\' :: rl⟩ "~\\" = true := by
    simp [strHasPre, String.toList, List.isPrefixOf]
  by_cases h3 : strHasPre ⟨'~' :: '\\' :: rl⟩ "~/" = true
  · simp [ExpandPath, h1, h2, h3, asString_mk]
  · simp [ExpandPath, h1, h2, h3, asString_mk]

/-- `ExpandPath` leaves a path unchanged when it does not start with a
tilde. -/
theorem expandPath_no_tilde (gh : Except EnvError String) (p : String)
    (hne : p.toList.head? ≠ some '~') : ExpandPath gh p = .ok p := by
  cases hp : p.data with
  | nil => simp [ExpandPath, hp]
  | cons c cs =>
    have hc : ¬ c = '~' := by
      intro hh
      exact hne (by simp [String.toList, hp, hh])
    simp [ExpandPath, hp, hc]

/-- `ExpandPath` leaves any leading-tilde form other than `"~"`, `"~/..."`
and `"~\..."` unchanged, without error. -/
theorem expandPath_other_tilde (gh : Except EnvError String) (p : String)
    (h1 : p ≠ "~") (h2 : strHasPre p "~/" = false) (h3 : strHasPre p "~\\" = false) :
    ExpandPath gh p = .ok p := by
  cases hp : p.data with
  | nil => simp [ExpandPath, hp]
  | cons c cs =>
    by_cases hc : c = '~'
    · simp [ExpandPath, hp, hc, h1, h2, h3]
    · simp [ExpandPath, hp, hc]

/-- `TestEnv.ExpandPath "~"` is the cleaned home (home defaults to the zero
value `""` when unset, which is the `home` field in either case). -/
theorem testEnv_expandPath_tilde (m : TestEnv) :
    m.ExpandPath "~" = goClean m.home := by
  by_cases hh : m.home = "" <;>
    simp [TestEnv.ExpandPath, TestEnv.GetHome, hh]

/-- `TestEnv.ExpandPath` on `"~/" ++ rest` joins the home field with the
remainder. -/
theorem testEnv_expandPath_tilde_slash (m : TestEnv) (rest : String) :
    m.ExpandPath ("~/" ++ rest) = goJoin2 m.home rest := by
  obtain ⟨rl⟩ := rest
  rw [show ("~/" ++ (⟨rl⟩ : String)) = ⟨'~' :: '/' :: rl⟩ from rfl]
  have h1 : ¬ ((⟨'~' :: '/' :: rl⟩ : String) = "~") := by
    intro hc
    have := congrArg String.data hc
    simp at this
  have h2 : strHasPre ⟨'~' :: '/' :: rl⟩ "~/" = true := by
    simp [strHasPre, String.toList, List.isPrefixOf]
  by_cases hh : m.home = "" <;>
    simp [TestEnv.ExpandPath, TestEnv.GetHome, h1, h2, asString_mk, hh]

/-- `TestEnv.ExpandPath` leaves a path unchanged when it does not start with
a tilde. -/
theorem testEnv_expandPath_no_tilde (m : TestEnv) (p : String)
    (hne : p.toList.head? ≠ some '~') : m.ExpandPath p = p := by
  cases hp : p.data with
  | nil => simp [TestEnv.ExpandPath, hp]
  | cons c cs =>
    have hc : ¬ c = '~' := by
      intro hh
      exact hne (by simp [String.toList, hp, hh])
    simp [TestEnv.ExpandPath, hp, hc]

/-- `TestEnv.ExpandPath` leaves any other leading-tilde form unchanged. -/
theorem testEnv_expandPath_other_tilde (m : TestEnv) (p : String)
    (h1 : p ≠ "~") (h2 : strHasPre p "~/" = false) (h3 : strHasPre p "~\\" = false) :
    m.ExpandPath p = p := by
  cases hp : p.data with
  | nil => simp [TestEnv.ExpandPath, hp]
  | cons c cs =>
    by_cases hc : c = '~'
    · simp [TestEnv.ExpandPath, hp, hc, h1, h2, h3]
    · simp [TestEnv.ExpandPath, hp, hc]

/-- Collecting each stage's error by index over `List.range` is the same as
filtering the stage list directly. -/
theorem range_filterMap_stage_err (stages : List StageModel) :
    (List.range stages.length).filterMap (fun i => stages[i]?.bind StageModel.err)
      = stages.filterMap StageModel.err := by
  induction stages with
  | nil => rfl
  | cons s t ih =>
    have h1 : ((fun i => (s :: t)[i]?.bind StageModel.err) ∘ Nat.succ)
        = fun i => t[i]?.bind StageModel.err := by
      funext i
      simp
    cases hs : s.err <;>
      simp [List.range_succ_eq_map, List.filterMap_cons, List.filterMap_map, h1, ih, hs]

/-! ## Claim theorems -/

/-- C1: the spec's containment-totality property — `IsInJail j (EnsureInJail
j p)` is true for every jail `j` and path `p` — fails on the code.  At jail
`"/jail"` and path `"/..b"`, `EnsureInJail` re-roots the outside path to
`"/jail/..b"`, which does lie beneath the jail (as `specContained` and the
relative path `"..b"` witness), yet `IsInJail` reports false: the relative
path `"..b"` begins with the string `".."` and the source's raw
`strings.HasPrefix` check mistakes it for a parent-directory escape. -/
theorem c1_containment_totality_failing_input :
    EnsureInJail "/jail" "/..b" = "/jail/..b" ∧
    IsInJail "/jail" (EnsureInJail "/jail" "/..b") = false ∧
    goRel "/jail" "/jail/..b" = some "..b" ∧
    specContained "/jail" "/jail/..b" = true := by decide

/-- C5: the claim that `IsInJail j p` is true exactly when the cleaned `p`
equals the cleaned `j` or lies strictly beneath it fails on the code.  The
path `"/jail/..b"` lies strictly beneath the jail `"/jail"` by whole-segment
comparison (`specContained`), but `IsInJail` returns false, because the
computed relative path is the single segment `"..b"` and the source checks
`strings.HasPrefix(rel, "..")` on the raw string.  The claim's sibling
example (`"/jailbreak/file.txt"`) is handled correctly. -/
theorem c5_segment_containment_failing_input :
    specContained "/jail" "/jail/..b" = true ∧
    IsInJail "/jail" "/jail/..b" = false ∧
    goRel "/jail" "/jail/..b" = some "..b" ∧
    strHasPre "..b" ".." = true ∧
    IsInJail "/jail" "/jailbreak/file.txt" = false ∧
    specContained "/jail" "/jailbreak/file.txt" = false := by decide

/-- C4: the "input is piped" flag of the stream built by `Process.Run` is
true for every process configuration — including one with no configured
input, where the claim (and the spec) require false — because the source
computes `IsPiped: in != nil` only after substituting the non-nil default
empty reader for a nil `in`. -/
theorem c4_is_piped_flag_always_true (p : ProcessModel) :
    (ProcessRunStream p).isPiped = true := by
  cases hp : p.stdin <;> simp [ProcessRunStream, hp]

/-- C2: `AtomicWriteFile` is all-or-nothing.  Starting from any filesystem
state with no leftover temp file: the call never leaves a temp file behind;
the target either keeps its previous content (whenever any step fails) or
holds exactly the full new data (on success); each failing step (mkdir,
temp-file creation, write, close) yields its own triggering error with the
target unchanged; and when every step succeeds the target holds the data. -/
theorem c2_atomic_write_all_or_nothing (oc : IOOutcome) (data : List Nat) (fs : FsState)
    (hnotmp : fs.tmp = none) :
    ((AtomicWriteFile oc data fs).2.tmp = none) ∧
    (((AtomicWriteFile oc data fs).1 = .ok () ∧
      (AtomicWriteFile oc data fs).2.target = some data) ∨
     ((AtomicWriteFile oc data fs).1 ≠ .ok () ∧
      (AtomicWriteFile oc data fs).2.target = fs.target)) ∧
    (oc.mkdirOk = false →
      (AtomicWriteFile oc data fs).1 = .error .mkdirFailed ∧
      (AtomicWriteFile oc data fs).2 = fs) ∧
    (oc.mkdirOk = true → oc.createOk = false →
      (AtomicWriteFile oc data fs).1 = .error .createFailed ∧
      (AtomicWriteFile oc data fs).2 = fs) ∧
    (oc.mkdirOk = true → oc.createOk = true → oc.writeOk = false →
      (AtomicWriteFile oc data fs).1 = .error .writeFailed ∧
      (AtomicWriteFile oc data fs).2.target = fs.target) ∧
    (oc.mkdirOk = true → oc.createOk = true → oc.writeOk = true → oc.closeOk = false →
      (AtomicWriteFile oc data fs).1 = .error .closeFailed ∧
      (AtomicWriteFile oc data fs).2.target = fs.target) ∧
    (oc.mkdirOk = true → oc.createOk = true → oc.writeOk = true → oc.closeOk = true →
      oc.renameOk = true →
      (AtomicWriteFile oc data fs).1 = .ok () ∧
      (AtomicWriteFile oc data fs).2.target = some data) := by
  obtain ⟨mk, cr, wr, cl, ch, rn⟩ := oc
  cases mk <;> cases cr <;> cases wr <;> cases cl <;> cases rn <;>
    simp [AtomicWriteFile, hnotmp]

/-- C2 witness: a write failure (all other steps fine) on a target that
previously held `[9]` returns the write error, keeps the old content and
removes the temp file. -/
theorem c2_atomic_write_all_or_nothing_witness :
    (FsState.mk (some [9]) none).tmp = none ∧
    (AtomicWriteFile ⟨true, true, false, true, true, true⟩ [1, 2] ⟨some [9], none⟩).1
      = .error .writeFailed ∧
    (AtomicWriteFile ⟨true, true, false, true, true, true⟩ [1, 2] ⟨some [9], none⟩).2.target
      = some [9] ∧
    (AtomicWriteFile ⟨true, true, false, true, true, true⟩ [1, 2] ⟨some [9], none⟩).2.tmp
      = none := by
  have h := c2_atomic_write_all_or_nothing ⟨true, true, false, true, true, true⟩
    [1, 2] ⟨some [9], none⟩ rfl
  exact ⟨rfl, (h.2.2.2.2.1 rfl rfl rfl).1, (h.2.2.2.2.1 rfl rfl rfl).2, h.1⟩

/-- C3 (amended): for every non-empty pipeline and every completion schedule
(a permutation of the launch order), the aggregate error is nil and the exit
code 0 exactly when no stage errored; otherwise the exit code is 1 and the
aggregate error is the join of all the non-nil stage errors in completion
order — a permutation of the launch-order list, not necessarily the
launch-order list itself. -/
theorem c3_pipeline_aggregate_error (stages : List StageModel) (completion : List Nat)
    (hne : stages ≠ []) (hperm : completion.Perm (List.range stages.length)) :
    ((stages.filterMap StageModel.err = [] →
        (PipelineRun stages completion).err = none ∧
        (PipelineRun stages completion).exitCode = 0) ∧
     (stages.filterMap StageModel.err ≠ [] →
        (PipelineRun stages completion).exitCode = 1 ∧
        ∃ l, (PipelineRun stages completion).err = some l ∧
          l ≠ [] ∧ l.Perm (stages.filterMap StageModel.err))) := by
  have hlen : ¬ stages.length = 0 := by
    simpa [List.length_eq_zero] using hne
  have hperm2 : (completion.filterMap (fun i => stages[i]?.bind StageModel.err)).Perm
      (stages.filterMap StageModel.err) := by
    have := hperm.filterMap (fun i => stages[i]?.bind StageModel.err)
    rwa [range_filterMap_stage_err] at this
  constructor
  · intro hes
    have hnil : completion.filterMap (fun i => stages[i]?.bind StageModel.err) = [] := by
      rw [hes] at hperm2
      exact List.Perm.eq_nil hperm2
    simp [PipelineRun, hlen, hnil]
  · intro hes
    have hnn : completion.filterMap (fun i => stages[i]?.bind StageModel.err) ≠ [] := by
      intro hc
      rw [hc] at hperm2
      exact hes (List.Perm.nil_eq hperm2).symm
    have hpos : 0 < (completion.filterMap (fun i => stages[i]?.bind StageModel.err)).length :=
      List.length_pos.mpr hnn
    refine ⟨by simp [PipelineRun, hlen, hpos], ?_⟩
    exact ⟨_, by simp [PipelineRun, hlen, hpos], hnn, hperm2⟩

/-- C3 counterexample to the claim as stated: with two failing stages and the
(legitimate) completion schedule in which the second stage finishes first,
the aggregate error joins the stage errors as `["e2", "e1"]` — not the
launch-order join `["e1", "e2"]` the claim requires. -/
theorem c3_pipeline_launch_order_counterexample :
    ([1, 0].Perm (List.range 2)) ∧
    (([⟨"a", some "e1"⟩, ⟨"b", some "e2"⟩] : List StageModel).filterMap StageModel.err
       = ["e1", "e2"]) ∧
    (PipelineRun [⟨"a", some "e1"⟩, ⟨"b", some "e2"⟩] [1, 0]).err = some ["e2", "e1"] ∧
    (PipelineRun [⟨"a", some "e1"⟩, ⟨"b", some "e2"⟩] [1, 0]).err ≠
      some (([⟨"a", some "e1"⟩, ⟨"b", some "e2"⟩] : List StageModel).filterMap
        StageModel.err) := by
  decide

/-- C3 witness: a one-stage pipeline whose stage fails with `"x"` exits 1
and aggregates a permutation of its error list. -/
theorem c3_pipeline_aggregate_error_witness :
    (([⟨"a", some "x"⟩] : List StageModel) ≠ []) ∧
    ([0].Perm (List.range ([⟨"a", some "x"⟩] : List StageModel).length)) ∧
    ((PipelineRun [⟨"a", some "x"⟩] [0]).exitCode = 1 ∧
     ∃ l, (PipelineRun [⟨"a", some "x"⟩] [0]).err = some l ∧
       l ≠ [] ∧ l.Perm (([⟨"a", some "x"⟩] : List StageModel).filterMap StageModel.err)) := by
  refine ⟨by decide, by decide,
    (c3_pipeline_aggregate_error [⟨"a", some "x"⟩] [0] (by decide) (by decide)).2
      (by decide)⟩

/-- C8: running a pipeline with an empty stage list yields exit code 1 and a
non-nil configuration error, launches no stage and wires no pipe, for every
completion schedule. -/
theorem c8_empty_pipeline (completion : List Nat) :
    (PipelineRun [] completion).err = some ["pipeline: no stages"] ∧
    (PipelineRun [] completion).err ≠ none ∧
    (PipelineRun [] completion).exitCode = 1 ∧
    (PipelineRun [] completion).launched = [] ∧
    (PipelineRun [] completion).pipesWired = 0 := by
  simp [PipelineRun]

/-- C6: mirror consistency of the in-memory environment.  After any sequence
of `Set`, `Unset`, `SetHome`, `SetUser`, `Setwd` operations, `Get "HOME"` is
the dedicated home field, `Get "USER"` the dedicated user field, and
`Get "PWD"` is the working directory (`Getwd` returns exactly that value, or
fails exactly when it is empty).  Moreover writing `HOME`/`USER` through the
generic `Set` updates the dedicated field, and `SetHome`/`SetUser` update
the variable table. -/
theorem c6_mirror_consistency (e : TestEnv) (ops : List EnvOp) (v h u d : String) :
    ((applyOps e ops).Get "HOME" = (applyOps e ops).home ∧
     (applyOps e ops).Get "USER" = (applyOps e ops).user ∧
     ((applyOps e ops).Getwd = Except.ok ((applyOps e ops).Get "PWD") ∨
      ((applyOps e ops).Get "PWD" = "" ∧
       (applyOps e ops).Getwd = .error (.notSet "wd not set in TestEnv")))) ∧
    ((e.Set "HOME" v).home = EnsureInJailFor e.jail v ∧
     (e.Set "HOME" v).data "HOME" = some (EnsureInJailFor e.jail v) ∧
     (e.SetHome h).data "HOME" = some (e.SetHome h).home ∧
     (e.Set "USER" u).user = u ∧
     (e.Set "USER" u).data "USER" = some u ∧
     (e.SetUser u).data "USER" = some (e.SetUser u).user ∧
     (e.Set "PWD" d).Get "PWD" = EnsureInJailFor e.jail (e.ExpandPath d)) := by
  refine ⟨⟨by simp [TestEnv.Get], by simp [TestEnv.Get], ?_⟩, ?_⟩
  · by_cases hw : mapGet (applyOps e ops).data "PWD" = ""
    · exact Or.inr ⟨by simp [TestEnv.Get, hw], by simp [TestEnv.Getwd, hw]⟩
    · exact Or.inl (by simp [TestEnv.Getwd, TestEnv.Get, hw])
  · refine ⟨?_, ?_, ?_, ?_, ?_, ?_, ?_⟩ <;>
      simp [TestEnv.Set, TestEnv.SetHome, TestEnv.SetUser, TestEnv.Setwd,
        TestEnv.Get, mapSet, mapGet]

/-- C7: on the Windows convention, the data and state lookups fail with an
error wrapping `ErrNoEnvKey` whenever `LOCALAPPDATA` is absent, while the
config and cache lookups never fail for missing override variables: when
home is available they succeed, falling back to `home/.config` and
`home/.cache` when no override is set. -/
theorem c7_windows_data_state_policy (env : EnvReads) (h a : String)
    (hlocal : env.vars "LOCALAPPDATA" = "")
    (hhome : env.home = .ok h) :
    UserDataPath true env = .error (.noEnvKey "LOCALAPPDATA environment variable not set") ∧
    UserStatePath true env = .error (.noEnvKey "LOCALAPPDATA environment variable not set") ∧
    (EnvError.noEnvKey "LOCALAPPDATA environment variable not set").wrapsNoEnvKey = true ∧
    (∃ vcfg, UserConfigPath env = .ok vcfg) ∧
    (∃ vcache, UserCachePath env a = .ok vcache) ∧
    (env.vars "XDG_CONFIG_HOME" = "" → env.vars "APPDATA" = "" →
      UserConfigPath env = .ok (goJoin2 h ".config")) ∧
    (env.vars "XDG_CACHE_HOME" = "" →
      UserCachePath env a = .ok (goJoin2 h ".cache")) := by
  refine ⟨by simp [UserDataPath, hlocal], by simp [UserStatePath, hlocal], rfl, ?_, ?_, ?_, ?_⟩
  · by_cases h1 : env.vars "XDG_CONFIG_HOME" = ""
    · by_cases h2 : env.vars "APPDATA" = ""
      · exact ⟨goJoin2 h ".config", by simp [UserConfigPath, h1, h2, hhome]⟩
      · exact ⟨env.vars "APPDATA", by simp [UserConfigPath, h1, h2]⟩
    · exact ⟨env.vars "XDG_CONFIG_HOME", by simp [UserConfigPath, h1]⟩
  · by_cases h1 : env.vars "XDG_CACHE_HOME" = ""
    · exact ⟨goJoin2 h ".cache", by simp [UserCachePath, h1, hlocal, hhome]⟩
    · exact ⟨env.vars "XDG_CACHE_HOME", by simp [UserCachePath, h1]⟩
  · intro h1 h2
    simp [UserConfigPath, h1, h2, hhome]
  · intro h1
    simp [UserCachePath, h1, hlocal, hhome]

/-- C7 witness: an environment with no variables set and home `"/home/t"`:
data and state fail with the `ErrNoEnvKey`-wrapping error, config and cache
fall back under home. -/
theorem c7_windows_data_state_policy_witness :
    ((⟨fun _ => "", Except.ok "/home/t"⟩ : EnvReads).vars "LOCALAPPDATA" = "") ∧
    ((⟨fun _ => "", Except.ok "/home/t"⟩ : EnvReads).home = Except.ok "/home/t") ∧
    UserDataPath true ⟨fun _ => "", Except.ok "/home/t"⟩
      = .error (.noEnvKey "LOCALAPPDATA environment variable not set") ∧
    UserStatePath true ⟨fun _ => "", Except.ok "/home/t"⟩
      = .error (.noEnvKey "LOCALAPPDATA environment variable not set") ∧
    UserConfigPath ⟨fun _ => "", Except.ok "/home/t"⟩ = .ok (goJoin2 "/home/t" ".config") ∧
    UserCachePath ⟨fun _ => "", Except.ok "/home/t"⟩ "app" = .ok (goJoin2 "/home/t" ".cache") := by
  have h := c7_windows_data_state_policy ⟨fun _ => "", Except.ok "/home/t"⟩ "/home/t" "app"
    rfl rfl
  exact ⟨rfl, rfl, h.1, h.2.1, h.2.2.2.2.2.1 rfl rfl, h.2.2.2.2.2.2 rfl⟩

/-- C9: the tilde rule of path expansion, for the context-level `ExpandPath`
and for `TestEnv.ExpandPath`: empty input returns empty; `"~"` expands to the
(cleaned) home; `"~/" ++ rest` and `"~\" ++ rest` expand to home joined with
the remainder; a path not starting with `'~'` (including ones with a
non-leading tilde) and any other leading-tilde form (such as `"~alice/..."`)
are returned unchanged, without error. -/
theorem c9_expand_path_tilde_rule (h rest p : String) (gh : Except EnvError String)
    (m : TestEnv) :
    (ExpandPath gh "" = .ok "") ∧
    (ExpandPath (.ok h) "~" = .ok (goClean h)) ∧
    (ExpandPath (.ok h) ("~/" ++ rest) = .ok (goJoin2 h rest)) ∧
    (ExpandPath (.ok h) ("~\\" ++ rest) = .ok (goJoin2 h rest)) ∧
    (p.toList.head? ≠ some '~' → ExpandPath gh p = .ok p) ∧
    (p ≠ "~" → strHasPre p "~/" = false → strHasPre p "~\\" = false →
      ExpandPath gh p = .ok p) ∧
    (m.ExpandPath "" = "") ∧
    (m.ExpandPath "~" = goClean m.home) ∧
    (m.ExpandPath ("~/" ++ rest) = goJoin2 m.home rest) ∧
    (p.toList.head? ≠ some '~' → m.ExpandPath p = p) ∧
    (p ≠ "~" → strHasPre p "~/" = false → strHasPre p "~\\" = false →
      m.ExpandPath p = p) := by
  refine ⟨rfl, rfl, expandPath_tilde_slash h rest, expandPath_tilde_backslash h rest,
    fun hne => expandPath_no_tilde gh p hne,
    fun h1 h2 h3 => expandPath_other_tilde gh p h1 h2 h3,
    rfl, testEnv_expandPath_tilde m, testEnv_expandPath_tilde_slash m rest,
    fun hne => testEnv_expandPath_no_tilde m p hne,
    fun h1 h2 h3 => testEnv_expandPath_other_tilde m p h1 h2 h3⟩

/-- C9 witness: concrete instances — a non-leading tilde path and an
unsupported `"~alice"` form are unchanged, and `"~/documents/file.txt"` with
home `"/home/bob"` expands to `"/home/bob/documents/file.txt"`. -/
theorem c9_expand_path_tilde_rule_witness :
    (("/tmp/~user/file" : String).toList.head? ≠ some '~') ∧
    ExpandPath (.ok "/home/bob") "/tmp/~user/file" = .ok "/tmp/~user/file" ∧
    (("~alice/docs" : String) ≠ "~") ∧
    strHasPre "~alice/docs" "~/" = false ∧
    strHasPre "~alice/docs" "~\\" = false ∧
    ExpandPath (.ok "/home/bob") "~alice/docs" = .ok "~alice/docs" ∧
    ExpandPath (.ok "/home/bob") "~/documents/file.txt"
      = .ok "/home/bob/documents/file.txt" := by
  have h1 := c9_expand_path_tilde_rule "/home/bob" "documents/file.txt" "/tmp/~user/file"
    (.ok "/home/bob") ⟨"", "/home/bob", "bob", fun _ => none⟩
  have h2 := c9_expand_path_tilde_rule "/home/bob" "" "~alice/docs"
    (.ok "/home/bob") ⟨"", "/home/bob", "bob", fun _ => none⟩
  refine ⟨by decide, h1.2.2.2.2.1 (by decide), by decide, by decide, by decide,
    h2.2.2.2.2.2.1 (by decide) (by decide) (by decide), ?_⟩
  have h3 := h1.2.2.1
  rw [show ("~/" ++ "documents/file.txt" : String) = "~/documents/file.txt" from rfl] at h3
  rw [h3]
  decide

/-- C10: constructing a `TestEnv` with empty home and empty username derives
the default home from the substitute name `"testuser"` (the jail-confined
`/home/testuser`, used as `HOME` and as the initial `PWD`), but stores the
empty string as the current user: `Get "USER"` is empty and `GetUser`
returns the not-set error. -/
theorem c10_new_testenv_empty_username (isWindows : Bool) (jail : String) :
    (NewTestEnv isWindows jail "" "").home = EnsureInJailFor jail "/home/testuser" ∧
    (NewTestEnv isWindows jail "" "").Get "HOME" = (NewTestEnv isWindows jail "" "").home ∧
    (NewTestEnv isWindows jail "" "").Get "PWD" = (NewTestEnv isWindows jail "" "").home ∧
    (NewTestEnv isWindows jail "" "").user = "" ∧
    (NewTestEnv isWindows jail "" "").Get "USER" = "" ∧
    (NewTestEnv isWindows jail "" "").GetUser = .error (.notSet "user not set in TestEnv") := by
  have hjoin : goJoin ["/", "home", "testuser"] = "/home/testuser" := by decide
  cases isWindows <;>
    simp [NewTestEnv, TestEnv.Get, TestEnv.GetUser, mapGet, mapSet, hjoin]
